import Mathlib

/-!
Verification of the NoFakePNG background-removal service (`src/main.py`)
against its natural-language specification.

The embedding below translates the request admission and validation
pipeline of `src/main.py`:

* `is_rate_limited` embeds `RateLimiter.is_rate_limited` (lines 41-72);
  timestamps are modelled as integer seconds, the per-client history as a
  `List Int`, and the mutated dictionary entry as the returned history.
* `readLoop` / `readBounded` embed the chunked size-bounded body read of
  `remove_background` (lines 160-184); bytes are modelled as `List Nat`.
* `remove_background` embeds the endpoint handler (lines 136-239),
  including the `check_rate_limit` dependency that FastAPI runs first.
  External collaborators (PIL decode, `rembg.remove`, PNG encoding) are
  parameters of an `Env` record; the executed pipeline steps are recorded
  in a trace so that ordering and reachability can be stated.
-/

namespace NoFakePNG

/-- The sliding window length: `timedelta(minutes=1)`, in seconds. -/
def WINDOW_SECONDS : Int := 60

/-- The deployed limit: `RateLimiter(requests_per_minute=10)` (line 75). -/
def requests_per_minute : Nat := 10

/-- Result of one `is_rate_limited` call: the returned pair
`(limited, wait_seconds)` together with the history stored back into
`self.request_history[client_ip]`. -/
structure RLResult where
  limited : Bool
  waitSeconds : Int
  history : List Int
deriving DecidableEq

/-- Lines 52-55: keep exactly the timestamps with `req_time > minute_ago`,
where `minute_ago = now - timedelta(minutes=1)`. -/
def prune (now : Int) (history : List Int) : List Int :=
  history.filter (fun t => now - WINDOW_SECONDS < t)

/-- `RateLimiter.is_rate_limited` (lines 41-72).  The Python code indexes
the pruned list with `[0]`; this is total here via `headD 0`, which agrees
with the code whenever the limit is positive (the reject branch then
guarantees a non-empty list).  `int(wait_seconds)` is the identity on the
integer time model. -/
def is_rate_limited (limit : Nat) (now : Int) (history : List Int) : RLResult :=
  let pruned := prune now history
  if limit ≤ pruned.length then
    RLResult.mk true (max 1 (WINDOW_SECONDS - (now - pruned.headD 0))) pruned
  else
    RLResult.mk false 0 (pruned ++ [now])

/-- The pipeline steps of `remove_background`, in source order. -/
inductive Step
  | rateLimit
  | typeCheck
  | readBody
  | decode
  | transform
  | encodePNG
deriving DecidableEq

/-- The HTTP outcome of one request: a 200 response with a PNG body, or an
`HTTPException` with a status code and a detail string. -/
inductive Outcome
  | success (body : List Nat)
  | failure (status : Nat) (detail : String)
deriving DecidableEq

/-- What `Image.open` exposes and the handler reads (lines 191-195):
`input_image.size` and `input_image.mode`. -/
structure ImageMetadata where
  width : Nat
  height : Nat
  mode : String
deriving DecidableEq

/-- External collaborators of the handler: PIL decoding (`Image.open`,
`none` models any decode exception), `rembg.remove` (the `Except.error`
message models the raised exception's text), and PNG encoding
(`output_image.save(..., format='PNG')`). -/
structure Env where
  decode : List Nat → Option ImageMetadata
  rembgRemove : ImageMetadata → Except String ImageMetadata
  encodePNG : ImageMetadata → List Nat

/-- One complete run of the endpoint: its HTTP outcome, the pipeline steps
that executed (in order), and the rate-limiter history after the call. -/
structure PipelineRun where
  outcome : Outcome
  trace : List Step
  history : List Int
deriving DecidableEq

/-- `chunk_size = 1024 * 1024` (line 169). -/
def CHUNK_SIZE : Nat := 1024 * 1024

/-- `MAX_FILE_SIZE = 10 * 1024 * 1024` (line 160). -/
def MAX_FILE_SIZE : Nat := 10 * 1024 * 1024

/-- Result of the chunked read: either the 413 abort (carrying the bytes
buffered so far) or the completely buffered body. -/
inductive ReadResult
  | tooLarge (consumed : List Nat)
  | complete (contents : List Nat)
deriving DecidableEq

/-- The `while True` loop of lines 170-183: read a chunk of up to
`chunkSize` bytes, stop on an empty chunk, extend the buffer, and abort
with 413 as soon as the running count exceeds `maxSize`.  The loop always
consumes at least one byte per iteration, so `fuel` larger than the
remaining length makes the fuel case unreachable. -/
def readLoop (chunkSize maxSize : Nat) : Nat → List Nat → List Nat → ReadResult
  | 0, acc, _ => ReadResult.complete acc
  | fuel + 1, acc, rem =>
    let chunk := rem.take chunkSize
    if chunk = [] then ReadResult.complete acc
    else
      let acc2 := acc ++ chunk
      if maxSize < acc2.length then ReadResult.tooLarge acc2
      else readLoop chunkSize maxSize fuel acc2 (rem.drop chunkSize)

/-- The size-bounded read of the whole request body (lines 163-184). -/
def readBounded (body : List Nat) : ReadResult :=
  readLoop CHUNK_SIZE MAX_FILE_SIZE (body.length + 1) [] body

/-- Line 150: `valid_image_types` — note it has five members, including
the non-standard `"image/jpg"`. -/
def valid_image_types : List String :=
  ["image/jpeg", "image/png", "image/jpg", "image/webp", "image/bmp"]

/-- The four MIME strings the specification names (JPEG, PNG, WebP, BMP),
kept separate for comparison against the source's list. -/
def specAllowedTypes : List String :=
  ["image/jpeg", "image/png", "image/webp", "image/bmp"]

/-- Detail string of the 400 raised at line 154. -/
def invalid_type_detail : String :=
  "Tipo de arquivo inválido. Por favor, envie uma imagem (JPEG, PNG, WebP ou BMP)."

/-- Detail string of the 413 raised at line 180. -/
def too_large_detail : String :=
  "O arquivo excede o tamanho máximo permitido de 10MB."

/-- Detail string of the 400 raised at line 201. -/
def invalid_image_detail : String :=
  "O arquivo enviado não é uma imagem válida."

/-- Detail string of the 500 raised at line 229. -/
def transform_error_detail : String :=
  "Erro interno durante o processamento da imagem."

/-- Detail string of the 429 raised at line 84 in `check_rate_limit`. -/
def rate_limit_detail (waitSeconds : Int) : String :=
  "Muitas requisições. Por favor, tente novamente em " ++ toString waitSeconds ++ " segundos."

/-- The `remove_background` endpoint (lines 136-239), together with its
`check_rate_limit` dependency (lines 78-87), which FastAPI evaluates
before the handler body runs.  Source control flow: rate-limit admission,
then the declared content-type check (line 152), then the chunked read
(lines 163-184), then decode (lines 189-204), then `rembg.remove` and PNG
encoding (lines 210-232). -/
def remove_background (env : Env) (limit : Nat) (now : Int) (history : List Int)
    (contentType : String) (body : List Nat) : PipelineRun :=
  let rl := is_rate_limited limit now history
  if rl.limited then
    PipelineRun.mk (Outcome.failure 429 (rate_limit_detail rl.waitSeconds))
      [Step.rateLimit] rl.history
  else if contentType ∈ valid_image_types then
    match readBounded body with
    | ReadResult.tooLarge _ =>
      PipelineRun.mk (Outcome.failure 413 too_large_detail)
        [Step.rateLimit, Step.typeCheck, Step.readBody] rl.history
    | ReadResult.complete contents =>
      match env.decode contents with
      | none =>
        PipelineRun.mk (Outcome.failure 400 invalid_image_detail)
          [Step.rateLimit, Step.typeCheck, Step.readBody, Step.decode] rl.history
      | some img =>
        match env.rembgRemove img with
        | Except.error _ =>
          PipelineRun.mk (Outcome.failure 500 transform_error_detail)
            [Step.rateLimit, Step.typeCheck, Step.readBody, Step.decode, Step.transform]
            rl.history
        | Except.ok outImg =>
          PipelineRun.mk (Outcome.success (env.encodePNG outImg))
            [Step.rateLimit, Step.typeCheck, Step.readBody, Step.decode, Step.transform,
              Step.encodePNG]
            rl.history
  else
    PipelineRun.mk (Outcome.failure 400 invalid_type_detail)
      [Step.rateLimit, Step.typeCheck] rl.history

/-- The source order of the pipeline steps: a run's trace is always a
prefix of this list. -/
def pipelineOrder : List Step :=
  [Step.rateLimit, Step.typeCheck, Step.readBody, Step.decode, Step.transform, Step.encodePNG]

/-- A decoded image larger than 4000 pixels in width, for concrete runs. -/
def bigImage : ImageMetadata := ImageMetadata.mk 5000 3000 "RGB"

/-- Concrete environment: every buffer decodes to `bigImage`, the
transform succeeds, and encoding yields the PNG magic bytes. -/
def env0 : Env :=
  Env.mk (fun _ => some bigImage) (fun img => Except.ok img) (fun _ => [137, 80, 78, 71])

/-- Concrete environment in which no buffer decodes. -/
def envNoDecode : Env :=
  Env.mk (fun _ => none) (fun img => Except.ok img) (fun _ => [])

/-- Concrete environment in which the external transform raises. -/
def envRembgFails : Env :=
  Env.mk (fun _ => some (ImageMetadata.mk 1 1 "RGB"))
    (fun _ => Except.error "model failure") (fun _ => [])

example : is_rate_limited 1 0 [-10] = RLResult.mk true 50 [-10] := by decide

example : readBounded [1, 2, 3] = ReadResult.complete [1, 2, 3] := by decide

example :
    (remove_background env0 10 0 [] "image/png" [1, 2, 3]).trace = pipelineOrder := by decide

/-- Claim C2: on each admit call, if the pruned history's length is at
least the limit, the call rejects with
`retryAfter = max 1 (windowDuration - (now - oldest remaining))` and does
not append; otherwise it appends `now` and returns admitted with wait `0`.
A pruned history of length exactly the limit is rejected, and on sorted
histories the head used by the code is indeed the oldest remaining
timestamp. -/
theorem spec_c2 (limit : Nat) (now : Int) (h : List Int) (hl : 0 < limit) :
    (limit ≤ (prune now h).length →
      is_rate_limited limit now h =
        RLResult.mk true (max 1 (WINDOW_SECONDS - (now - (prune now h).headD 0))) (prune now h)
      ∧ 1 ≤ (is_rate_limited limit now h).waitSeconds)
    ∧ ((prune now h).length < limit →
      is_rate_limited limit now h = RLResult.mk false 0 (prune now h ++ [now]))
    ∧ ((prune now h).length = limit → (is_rate_limited limit now h).limited = true)
    ∧ (List.Sorted (· ≤ ·) h → limit ≤ (prune now h).length →
      ∃ rest, prune now h = (prune now h).headD 0 :: rest
        ∧ ∀ t ∈ prune now h, (prune now h).headD 0 ≤ t) := by
  refine ⟨fun hge => ?_, fun hlt => ?_, fun heq => ?_, fun hsort hge => ?_⟩
  · rw [is_rate_limited, if_pos hge]
    exact ⟨rfl, le_max_left 1 _⟩
  · rw [is_rate_limited, if_neg (not_le.mpr hlt)]
  · rw [is_rate_limited, if_pos (le_of_eq heq.symm)]
  · have hne : prune now h ≠ [] := by
      intro hnil
      rw [hnil] at hge
      simp at hge
      omega
    obtain ⟨p0, rest, hcons⟩ := List.exists_cons_of_ne_nil hne
    have hhead : (prune now h).headD 0 = p0 := by rw [hcons]; rfl
    have hps : List.Sorted (· ≤ ·) (prune now h) := hsort.filter _
    rw [hcons] at hps
    obtain ⟨hlb, -⟩ := List.sorted_cons.mp hps
    refine ⟨rest, by rw [hhead, hcons], fun t ht => ?_⟩
    rw [hcons] at ht
    rw [hhead]
    rcases List.mem_cons.mp ht with hth | htr
    · exact le_of_eq hth.symm
    · exact hlb t htr

/-- Witness for C2 at a concrete rejected call. -/
theorem spec_c2_witness :
    is_rate_limited 1 0 [-10] =
      RLResult.mk true (max 1 (WINDOW_SECONDS - (0 - (prune 0 [-10]).headD 0))) (prune 0 [-10])
    ∧ 1 ≤ (is_rate_limited 1 0 [-10]).waitSeconds :=
  (spec_c2 1 0 [-10] (by decide)).1 (by decide)

/-- Claim C5: on every admit call, every timestamp at least a full window
older than `now` is discarded before the limit check, every timestamp
inside the trailing window `(now - 60, now]` is retained, and (assuming
the clock never ran backwards relative to the recorded history) every
timestamp retained after the call lies within that trailing window. -/
theorem spec_c5 (limit : Nat) (now : Int) (h : List Int)
    (hmono : ∀ t ∈ h, t ≤ now) :
    (∀ t ∈ h, t ≤ now - WINDOW_SECONDS → t ∉ (is_rate_limited limit now h).history)
    ∧ (∀ t ∈ h, now - WINDOW_SECONDS < t → t ∈ (is_rate_limited limit now h).history)
    ∧ (∀ t ∈ (is_rate_limited limit now h).history, now - WINDOW_SECONDS < t ∧ t ≤ now) := by
  have hwin : (0 : Int) < WINDOW_SECONDS := by decide
  rw [is_rate_limited]
  split
  · refine ⟨fun t ht hold hmem => ?_, fun t ht hin => ?_, fun t hmem => ?_⟩
    · have := (List.mem_filter.mp hmem).2
      simp only [decide_eq_true_eq] at this
      omega
    · exact List.mem_filter.mpr ⟨ht, by simp only [decide_eq_true_eq]; omega⟩
    · obtain ⟨hth, hpred⟩ := List.mem_filter.mp hmem
      simp only [decide_eq_true_eq] at hpred
      exact ⟨hpred, hmono t hth⟩
  · refine ⟨fun t ht hold hmem => ?_, fun t ht hin => ?_, fun t hmem => ?_⟩
    · rcases List.mem_append.mp hmem with hf | hs
      · have := (List.mem_filter.mp hf).2
        simp only [decide_eq_true_eq] at this
        omega
      · have : t = now := List.mem_singleton.mp hs
        omega
    · exact List.mem_append.mpr (Or.inl (List.mem_filter.mpr
        ⟨ht, by simp only [decide_eq_true_eq]; omega⟩))
    · rcases List.mem_append.mp hmem with hf | hs
      · obtain ⟨hth, hpred⟩ := List.mem_filter.mp hf
        simp only [decide_eq_true_eq] at hpred
        exact ⟨hpred, hmono t hth⟩
      · have : t = now := List.mem_singleton.mp hs
        constructor <;> omega

/-- Witness for C5: a within-window timestamp is retained at a concrete
call. -/
theorem spec_c5_witness : (-10 : Int) ∈ (is_rate_limited 1 0 [-10, -100]).history :=
  (spec_c5 1 0 [-10, -100] (by decide)).2.1 (-10) (by decide) (by decide)

/-- Claim C10: a rejected admit call stores back exactly the pruned
history (no append, no other change), and if the history's length was at
most the limit before the call it still is after it. -/
theorem spec_c10 (limit : Nat) (now : Int) (h : List Int) (hlen : h.length ≤ limit) :
    ((is_rate_limited limit now h).limited = true →
      (is_rate_limited limit now h).history = prune now h)
    ∧ (is_rate_limited limit now h).history.length ≤ limit := by
  have hple : (prune now h).length ≤ h.length := List.length_filter_le _ h
  rw [is_rate_limited]
  split
  · exact ⟨fun _ => rfl, le_trans hple hlen⟩
  · refine ⟨fun hcontra => by simp at hcontra, ?_⟩
    rw [List.length_append]
    simp only [List.length_singleton]
    omega

/-- Witness for C10 at a concrete call that stays within the limit. -/
theorem spec_c10_witness : (is_rate_limited 2 0 [0]).history.length ≤ 2 :=
  (spec_c10 2 0 [0] (by decide)).2

/-- Claim C4: a client rejected at time `now` with returned wait `w` is
admitted by a new call at any time `nowLater ≥ now + w`, provided its
history obeys the length invariant and it issued no request in between
(the second call runs on the history stored by the first). -/
theorem spec_c4 (limit : Nat) (now nowLater : Int) (h : List Int)
    (hl : 0 < limit) (hlen : h.length ≤ limit)
    (hrej : (is_rate_limited limit now h).limited = true)
    (hwait : now + (is_rate_limited limit now h).waitSeconds ≤ nowLater) :
    (is_rate_limited limit nowLater ((is_rate_limited limit now h).history)).limited = false := by
  by_cases hge : limit ≤ (prune now h).length
  · have hhist : (is_rate_limited limit now h).history = prune now h := by
      rw [is_rate_limited, if_pos hge]
    rw [is_rate_limited, if_pos hge] at hwait
    have hple : (prune now h).length ≤ h.length := List.length_filter_le _ h
    have hne : prune now h ≠ [] := by
      intro hnil
      rw [hnil] at hge
      simp at hge
      omega
    obtain ⟨p0, rest, hcons⟩ := List.exists_cons_of_ne_nil hne
    have hhead : (prune now h).headD 0 = p0 := by rw [hcons]; rfl
    have hmax : WINDOW_SECONDS - (now - p0) ≤ max 1 (WINDOW_SECONDS - (now - p0)) :=
      le_max_right 1 _
    simp only [hhead] at hwait
    have hwait2 : now + max 1 (WINDOW_SECONDS - (now - p0)) ≤ nowLater := hwait
    have hp0f : ¬ (nowLater - WINDOW_SECONDS < p0) := by omega
    have hprune2 : prune nowLater (prune now h) =
        (rest.filter (fun t => decide (nowLater - WINDOW_SECONDS < t))) := by
      rw [hcons, prune, List.filter_cons]
      simp [hp0f]
    have hlen2 : (prune nowLater (prune now h)).length < limit := by
      rw [hprune2]
      have hrle : (rest.filter (fun t => decide (nowLater - WINDOW_SECONDS < t))).length
          ≤ rest.length := List.length_filter_le _ rest
      have : rest.length + 1 = (prune now h).length := by rw [hcons]; rfl
      omega
    rw [hhist, is_rate_limited, if_neg (not_le.mpr hlen2)]
  · rw [is_rate_limited, if_neg hge] at hrej
    simp at hrej

/-- Witness for C4: a client at the limit at time 0 waits the returned 60
seconds and is admitted at time 60. -/
theorem spec_c4_witness : (is_rate_limited 1 60 ((is_rate_limited 1 0 [0]).history)).limited = false :=
  spec_c4 1 0 60 [0] (by decide) (by decide) (by decide) (by decide)

/-- When the buffered prefix plus the remainder fit under the ceiling, the
chunked loop completes with the whole input buffered. -/
lemma readLoop_complete (chunkSize maxSize : Nat) (hc : 0 < chunkSize) :
    ∀ fuel acc rem, rem.length < fuel → acc.length + rem.length ≤ maxSize →
      readLoop chunkSize maxSize fuel acc rem = ReadResult.complete (acc ++ rem) := by
  intro fuel
  induction fuel with
  | zero => intro acc rem h1 _; omega
  | succ fuel ih =>
    intro acc rem h1 h2
    by_cases hrem : rem = []
    · subst hrem
      simp [readLoop]
    · have hchunk : rem.take chunkSize ≠ [] := by
        simp only [ne_eq, List.take_eq_nil_iff]
        push_neg
        exact ⟨by omega, hrem⟩
      have hlt : (rem.take chunkSize).length = min chunkSize rem.length :=
        List.length_take _ _
      have hrpos : 0 < rem.length := List.length_pos.mpr hrem
      rw [readLoop]
      simp only [hchunk, if_false, ite_false]
      have hnof : ¬ (maxSize < (acc ++ rem.take chunkSize).length) := by
        rw [List.length_append, hlt]
        omega
      rw [if_neg hnof]
      have hdl : (rem.drop chunkSize).length = rem.length - chunkSize :=
        List.length_drop _ _
      rw [ih (acc ++ rem.take chunkSize) (rem.drop chunkSize)
        (by rw [hdl]; omega)
        (by rw [List.length_append, hlt, hdl]; omega)]
      rw [List.append_assoc, List.take_append_drop]

/-- When the input exceeds the ceiling, the chunked loop aborts holding a
chunk-aligned prefix of the input that exceeds the ceiling by at most one
chunk: the remainder of the body is never buffered. -/
lemma readLoop_tooLarge (chunkSize maxSize : Nat) (hc : 0 < chunkSize) :
    ∀ fuel acc rem, rem.length < fuel → acc.length ≤ maxSize →
      maxSize < acc.length + rem.length →
      ∃ n, readLoop chunkSize maxSize fuel acc rem = ReadResult.tooLarge (acc ++ rem.take n)
        ∧ maxSize < (acc ++ rem.take n).length
        ∧ (acc ++ rem.take n).length ≤ maxSize + chunkSize := by
  intro fuel
  induction fuel with
  | zero => intro acc rem h1 _ _; omega
  | succ fuel ih =>
    intro acc rem h1 h2 h3
    by_cases hrem : rem = []
    · subst hrem
      simp at h3
      omega
    · have hchunk : rem.take chunkSize ≠ [] := by
        simp only [ne_eq, List.take_eq_nil_iff]
        push_neg
        exact ⟨by omega, hrem⟩
      have hlt : (rem.take chunkSize).length = min chunkSize rem.length :=
        List.length_take _ _
      have hrpos : 0 < rem.length := List.length_pos.mpr hrem
      rw [readLoop]
      simp only [hchunk, if_false, ite_false]
      by_cases hover : maxSize < (acc ++ rem.take chunkSize).length
      · rw [if_pos hover]
        refine ⟨chunkSize, rfl, hover, ?_⟩
        rw [List.length_append, hlt]
        omega
      · rw [if_neg hover]
        have hdl : (rem.drop chunkSize).length = rem.length - chunkSize :=
          List.length_drop _ _
        rw [List.length_append, hlt] at hover
        obtain ⟨n, heq, hgt, hle⟩ := ih (acc ++ rem.take chunkSize) (rem.drop chunkSize)
          (by rw [hdl]; omega)
          (by rw [List.length_append, hlt]; omega)
          (by rw [List.length_append, hlt, hdl]; omega)
        refine ⟨chunkSize + n, ?_, ?_, ?_⟩
        · rw [heq, List.take_add, ← List.append_assoc]
        · rw [List.append_assoc, ← List.take_add] at hgt
          exact hgt
        · rw [List.append_assoc, ← List.take_add] at hle
          exact hle

/-- Claim C6: the bounded read fails exactly when the body strictly
exceeds the 10 MiB ceiling.  A body of at most 10 MiB (in particular
exactly 10 MiB) completes and returns the full byte sequence; a larger
body aborts holding only a prefix of the body, more than the ceiling but
at most the ceiling plus one 1 MiB chunk, so the remainder is never
buffered; and in the pipeline the abort is mapped to the 413 outcome. -/
theorem spec_c6 (data : List Nat) :
    (data.length ≤ MAX_FILE_SIZE → readBounded data = ReadResult.complete data)
    ∧ (MAX_FILE_SIZE < data.length →
      ∃ n, readBounded data = ReadResult.tooLarge (data.take n)
        ∧ MAX_FILE_SIZE < (data.take n).length
        ∧ (data.take n).length ≤ MAX_FILE_SIZE + CHUNK_SIZE)
    ∧ (∀ env limit now h ct, (is_rate_limited limit now h).limited = false →
      ct ∈ valid_image_types → MAX_FILE_SIZE < data.length →
      (remove_background env limit now h ct data).outcome = Outcome.failure 413 too_large_detail) := by
  have hc : 0 < CHUNK_SIZE := by decide
  refine ⟨fun hle => ?_, fun hgt => ?_, fun env limit now h ct hadm hct hgt => ?_⟩
  · have := readLoop_complete CHUNK_SIZE MAX_FILE_SIZE hc (data.length + 1) [] data
      (by omega) (by simpa using hle)
    simpa [readBounded] using this
  · obtain ⟨n, heq, hgt2, hle2⟩ := readLoop_tooLarge CHUNK_SIZE MAX_FILE_SIZE hc
      (data.length + 1) [] data (by omega) (by simp) (by simpa using hgt)
    exact ⟨n, by simpa [readBounded] using heq, by simpa using hgt2, by simpa using hle2⟩
  · obtain ⟨n, heq, -, -⟩ := readLoop_tooLarge CHUNK_SIZE MAX_FILE_SIZE hc
      (data.length + 1) [] data (by omega) (by simp) (by simpa using hgt)
    have heq2 : readBounded data = ReadResult.tooLarge (data.take n) := by
      simpa [readBounded] using heq
    rw [remove_background]
    simp only [hadm, Bool.false_eq_true, if_false, ite_false, hct, if_pos, ite_true, heq2]

/-- Witness for C6 at a concrete small body, which completes in full. -/
theorem spec_c6_witness : readBounded [1, 2, 3] = ReadResult.complete [1, 2, 3] :=
  (spec_c6 [1, 2, 3]).1 (by decide)

/-- Run characterization: a rate-limited request terminates at admission
with the 429 outcome carrying the retry hint. -/
lemma run_limited (env : Env) (limit : Nat) (now : Int) (h : List Int)
    (ct : String) (body : List Nat)
    (hadm : (is_rate_limited limit now h).limited = true) :
    remove_background env limit now h ct body =
      PipelineRun.mk
        (Outcome.failure 429 (rate_limit_detail (is_rate_limited limit now h).waitSeconds))
        [Step.rateLimit] (is_rate_limited limit now h).history := by
  rw [remove_background]
  simp only [hadm, ite_true]

/-- Run characterization: an admitted request with a declared type outside
the allow-list terminates at the type check with the InvalidType 400. -/
lemma run_invalidType (env : Env) (limit : Nat) (now : Int) (h : List Int)
    (ct : String) (body : List Nat)
    (hadm : (is_rate_limited limit now h).limited = false)
    (hct : ct ∉ valid_image_types) :
    remove_background env limit now h ct body =
      PipelineRun.mk (Outcome.failure 400 invalid_type_detail)
        [Step.rateLimit, Step.typeCheck] (is_rate_limited limit now h).history := by
  rw [remove_background]
  simp only [hadm, Bool.false_eq_true, if_false, ite_false, hct, ite_false]

/-- Run characterization: an oversized body terminates at the bounded read
with the 413 outcome. -/
lemma run_tooLarge (env : Env) (limit : Nat) (now : Int) (h : List Int)
    (ct : String) (body c : List Nat)
    (hadm : (is_rate_limited limit now h).limited = false)
    (hct : ct ∈ valid_image_types)
    (hr : readBounded body = ReadResult.tooLarge c) :
    remove_background env limit now h ct body =
      PipelineRun.mk (Outcome.failure 413 too_large_detail)
        [Step.rateLimit, Step.typeCheck, Step.readBody] (is_rate_limited limit now h).history := by
  rw [remove_background]
  simp only [hadm, Bool.false_eq_true, if_false, ite_false, hct, if_pos, ite_true, hr]

/-- Run characterization: a buffered body that fails to decode terminates
at decoding with the InvalidImage 400. -/
lemma run_invalidImage (env : Env) (limit : Nat) (now : Int) (h : List Int)
    (ct : String) (body c : List Nat)
    (hadm : (is_rate_limited limit now h).limited = false)
    (hct : ct ∈ valid_image_types)
    (hr : readBounded body = ReadResult.complete c)
    (hd : env.decode c = none) :
    remove_background env limit now h ct body =
      PipelineRun.mk (Outcome.failure 400 invalid_image_detail)
        [Step.rateLimit, Step.typeCheck, Step.readBody, Step.decode]
        (is_rate_limited limit now h).history := by
  rw [remove_background]
  simp only [hadm, Bool.false_eq_true, if_false, ite_false, hct, if_pos, ite_true, hr, hd]

/-- Run characterization: a failing external transform terminates with the
generic 500 outcome, whatever the internal exception message. -/
lemma run_transformError (env : Env) (limit : Nat) (now : Int) (h : List Int)
    (ct : String) (body c : List Nat) (img : ImageMetadata) (msg : String)
    (hadm : (is_rate_limited limit now h).limited = false)
    (hct : ct ∈ valid_image_types)
    (hr : readBounded body = ReadResult.complete c)
    (hd : env.decode c = some img)
    (he : env.rembgRemove img = Except.error msg) :
    remove_background env limit now h ct body =
      PipelineRun.mk (Outcome.failure 500 transform_error_detail)
        [Step.rateLimit, Step.typeCheck, Step.readBody, Step.decode, Step.transform]
        (is_rate_limited limit now h).history := by
  rw [remove_background]
  simp only [hadm, Bool.false_eq_true, if_false, ite_false, hct, if_pos, ite_true, hr, hd, he]

/-- Run characterization: a fully successful request runs every step and
returns the encoded PNG. -/
lemma run_success (env : Env) (limit : Nat) (now : Int) (h : List Int)
    (ct : String) (body c : List Nat) (img outImg : ImageMetadata)
    (hadm : (is_rate_limited limit now h).limited = false)
    (hct : ct ∈ valid_image_types)
    (hr : readBounded body = ReadResult.complete c)
    (hd : env.decode c = some img)
    (he : env.rembgRemove img = Except.ok outImg) :
    remove_background env limit now h ct body =
      PipelineRun.mk (Outcome.success (env.encodePNG outImg))
        [Step.rateLimit, Step.typeCheck, Step.readBody, Step.decode, Step.transform,
          Step.encodePNG]
        (is_rate_limited limit now h).history := by
  rw [remove_background]
  simp only [hadm, Bool.false_eq_true, if_false, ite_false, hct, if_pos, ite_true, hr, hd, he]

/-- Counterexample to C1 as stated: a body decoding to a 5000 by 3000
image (width above 4000) is not rejected with any 400 outcome; the run
succeeds and the transform step is reached, because the handler only
logs `input_image.size` and never checks it. -/
theorem spec_c1_counterexample :
    env0.decode [1, 2, 3] = some bigImage
    ∧ 4000 < bigImage.width
    ∧ (remove_background env0 10 0 [] "image/png" [1, 2, 3]).outcome
        = Outcome.success [137, 80, 78, 71]
    ∧ Step.transform ∈ (remove_background env0 10 0 [] "image/png" [1, 2, 3]).trace := by
  decide

/-- Claim C1 amended: the handler performs no dimension check at all — for
every successfully decoded image, regardless of its width and height, the
transformation step is reached (there is no DimensionTooLarge outcome in
the code). -/
theorem spec_c1_amended (env : Env) (limit : Nat) (now : Int) (h : List Int)
    (ct : String) (body contents : List Nat) (img : ImageMetadata)
    (hadm : (is_rate_limited limit now h).limited = false)
    (hct : ct ∈ valid_image_types)
    (hread : readBounded body = ReadResult.complete contents)
    (hdec : env.decode contents = some img) :
    Step.transform ∈ (remove_background env limit now h ct body).trace := by
  cases he : env.rembgRemove img with
  | error msg =>
    rw [run_transformError env limit now h ct body contents img msg hadm hct hread hdec he]
    show Step.transform ∈
      [Step.rateLimit, Step.typeCheck, Step.readBody, Step.decode, Step.transform]
    decide
  | ok outImg =>
    rw [run_success env limit now h ct body contents img outImg hadm hct hread hdec he]
    show Step.transform ∈
      [Step.rateLimit, Step.typeCheck, Step.readBody, Step.decode, Step.transform,
        Step.encodePNG]
    decide

/-- Witness for C1 amended: a decoded 5000 by 3000 image reaches the
transform. -/
theorem spec_c1_amended_witness :
    Step.transform ∈ (remove_background env0 10 0 [] "image/png" [1, 2, 3]).trace :=
  spec_c1_amended env0 10 0 [] "image/png" [1, 2, 3] [1, 2, 3] bigImage
    (by decide) (by decide) (by decide) (by rfl)

/-- Counterexample to C3 as stated: the declared content-type is checked
before the body is read.  A request with declared type `text/plain` is
rejected by the type check with the body never read at all, and in a
successful run the type check precedes the body read in the trace. -/
theorem spec_c3_counterexample :
    (remove_background env0 10 0 [] "text/plain" [1, 2, 3]).trace
      = [Step.rateLimit, Step.typeCheck]
    ∧ Step.readBody ∉ (remove_background env0 10 0 [] "text/plain" [1, 2, 3]).trace
    ∧ (remove_background env0 10 0 [] "text/plain" [1, 2, 3]).outcome
        = Outcome.failure 400 invalid_type_detail
    ∧ (remove_background env0 10 0 [] "image/png" [1, 2, 3]).trace = pipelineOrder := by
  decide

/-- Claim C3 amended: the pipeline steps execute in the fixed order
rate-limit admission, declared content-type check, size-bounded chunked
read, decode, external transform, PNG encoding — the content-type check
precedes the body read — and every run's trace is a prefix of that order,
stopping at its first failing step. -/
theorem spec_c3_amended (env : Env) (limit : Nat) (now : Int) (h : List Int)
    (ct : String) (body : List Nat) :
    ∃ k, (remove_background env limit now h ct body).trace = pipelineOrder.take k := by
  by_cases hadm : (is_rate_limited limit now h).limited
  · exact ⟨1, by rw [run_limited env limit now h ct body hadm]; rfl⟩
  · have hadm2 : (is_rate_limited limit now h).limited = false := by
      simpa using hadm
    by_cases hct : ct ∈ valid_image_types
    · cases hr : readBounded body with
      | tooLarge c =>
        exact ⟨3, by rw [run_tooLarge env limit now h ct body c hadm2 hct hr]; rfl⟩
      | complete c =>
        cases hd : env.decode c with
        | none =>
          exact ⟨4, by rw [run_invalidImage env limit now h ct body c hadm2 hct hr hd]; rfl⟩
        | some img =>
          cases he : env.rembgRemove img with
          | error msg =>
            exact ⟨5, by
              rw [run_transformError env limit now h ct body c img msg hadm2 hct hr hd he]; rfl⟩
          | ok outImg =>
            exact ⟨6, by
              rw [run_success env limit now h ct body c img outImg hadm2 hct hr hd he]; rfl⟩
    · exact ⟨2, by rw [run_invalidType env limit now h ct body hadm2 hct]; rfl⟩

/-- Counterexample to C7 as stated: the source's allow-list has five
entries, not four — the non-standard `"image/jpg"` is also accepted.  A
request declaring `image/jpg`, which is outside the four spec-named MIME
strings, passes the type check and proceeds to the body read. -/
theorem spec_c7_counterexample :
    "image/jpg" ∈ valid_image_types
    ∧ "image/jpg" ∉ specAllowedTypes
    ∧ (remove_background env0 10 0 [] "image/jpg" [1, 2, 3]).outcome
        ≠ Outcome.failure 400 invalid_type_detail
    ∧ Step.readBody ∈ (remove_background env0 10 0 [] "image/jpg" [1, 2, 3]).trace := by
  decide

/-- Claim C7 amended: for an admitted request, validation fails with the
InvalidType 400 before any body read or decode work exactly when the
declared content-type is outside the five case-sensitive strings
`image/jpeg`, `image/png`, `image/jpg`, `image/webp`, `image/bmp`; every
declared type in that five-element list passes this first check. -/
theorem spec_c7_amended (env : Env) (limit : Nat) (now : Int) (h : List Int)
    (ct : String) (body : List Nat)
    (hadm : (is_rate_limited limit now h).limited = false) :
    ((remove_background env limit now h ct body).trace = [Step.rateLimit, Step.typeCheck]
      ∧ (remove_background env limit now h ct body).outcome
          = Outcome.failure 400 invalid_type_detail)
    ↔ ct ∉ valid_image_types := by
  constructor
  · rintro ⟨htr, -⟩
    intro hct
    cases hr : readBounded body with
    | tooLarge c =>
      rw [run_tooLarge env limit now h ct body c hadm hct hr] at htr
      simp at htr
    | complete c =>
      cases hd : env.decode c with
      | none =>
        rw [run_invalidImage env limit now h ct body c hadm hct hr hd] at htr
        simp at htr
      | some img =>
        cases he : env.rembgRemove img with
        | error msg =>
          rw [run_transformError env limit now h ct body c img msg hadm hct hr hd he] at htr
          simp at htr
        | ok outImg =>
          rw [run_success env limit now h ct body c img outImg hadm hct hr hd he] at htr
          simp at htr
  · intro hct
    rw [run_invalidType env limit now h ct body hadm hct]
    exact ⟨rfl, rfl⟩

/-- Witness for C7 amended: an `application/pdf` declaration is rejected
by the type check with the body never read. -/
theorem spec_c7_amended_witness :
    (remove_background env0 10 0 [] "application/pdf" [1, 2, 3]).trace
      = [Step.rateLimit, Step.typeCheck]
    ∧ (remove_background env0 10 0 [] "application/pdf" [1, 2, 3]).outcome
        = Outcome.failure 400 invalid_type_detail :=
  (spec_c7_amended env0 10 0 [] "application/pdf" [1, 2, 3] (by decide)).mpr (by decide)

/-- Claim C8: whenever the buffered bytes fail to decode, an admitted
request with any accepted declared content-type fails with the
InvalidImage 400, the transform step is never reached, and the declared
type does not affect the outcome (it is the same for every accepted
declared type). -/
theorem spec_c8 (env : Env) (limit : Nat) (now : Int) (h : List Int)
    (ct : String) (body contents : List Nat)
    (hadm : (is_rate_limited limit now h).limited = false)
    (hct : ct ∈ valid_image_types)
    (hread : readBounded body = ReadResult.complete contents)
    (hdec : env.decode contents = none) :
    (remove_background env limit now h ct body).outcome
      = Outcome.failure 400 invalid_image_detail
    ∧ Step.transform ∉ (remove_background env limit now h ct body).trace
    ∧ ∀ ct2 ∈ valid_image_types,
        (remove_background env limit now h ct2 body).outcome
          = Outcome.failure 400 invalid_image_detail := by
  refine ⟨?_, ?_, fun ct2 hct2 => ?_⟩
  · rw [run_invalidImage env limit now h ct body contents hadm hct hread hdec]
  · rw [run_invalidImage env limit now h ct body contents hadm hct hread hdec]
    show Step.transform ∉ [Step.rateLimit, Step.typeCheck, Step.readBody, Step.decode]
    decide
  · rw [run_invalidImage env limit now h ct2 body contents hadm hct2 hread hdec]

/-- Witness for C8 with a concrete environment in which nothing decodes. -/
theorem spec_c8_witness :
    (remove_background envNoDecode 10 0 [] "image/png" [1, 2, 3]).outcome
      = Outcome.failure 400 invalid_image_detail :=
  (spec_c8 envNoDecode 10 0 [] "image/png" [1, 2, 3] [1, 2, 3]
    (by decide) (by decide) (by decide) (by rfl)).1

/-- Claim C9: a failure of the external transform is mapped to the 500
outcome whose detail is the fixed generic string, for every internal
exception message (no exception text reaches the outcome); every failure
outcome of the pipeline carries status 400, 413, 429 or 500; and each
client-error cause maps to exactly one status: rate-limiting to 429,
an invalid declared type to 400, an oversized body to 413, and a decode
failure to 400. -/
theorem spec_c9 (env : Env) (limit : Nat) (now : Int) (h : List Int)
    (ct : String) (body : List Nat) :
    (∀ contents img msg,
      (is_rate_limited limit now h).limited = false →
      ct ∈ valid_image_types →
      readBounded body = ReadResult.complete contents →
      env.decode contents = some img →
      env.rembgRemove img = Except.error msg →
      (remove_background env limit now h ct body).outcome
        = Outcome.failure 500 transform_error_detail)
    ∧ (∀ st d, (remove_background env limit now h ct body).outcome = Outcome.failure st d →
        st = 400 ∨ st = 413 ∨ st = 429 ∨ st = 500)
    ∧ ((is_rate_limited limit now h).limited = true →
      (remove_background env limit now h ct body).outcome
        = Outcome.failure 429 (rate_limit_detail (is_rate_limited limit now h).waitSeconds))
    ∧ ((is_rate_limited limit now h).limited = false → ct ∉ valid_image_types →
      (remove_background env limit now h ct body).outcome
        = Outcome.failure 400 invalid_type_detail) := by
  refine ⟨fun contents img msg hadm hct hread hdec hrem => ?_, fun st d => ?_,
    fun hlim => ?_, fun hadm hct => ?_⟩
  · rw [run_transformError env limit now h ct body contents img msg hadm hct hread hdec hrem]
  · by_cases hadm : (is_rate_limited limit now h).limited
    · rw [run_limited env limit now h ct body hadm]
      intro hout
      simp only [Outcome.failure.injEq] at hout
      omega
    · have hadm2 : (is_rate_limited limit now h).limited = false := by simpa using hadm
      by_cases hct : ct ∈ valid_image_types
      · cases hr : readBounded body with
        | tooLarge c =>
          rw [run_tooLarge env limit now h ct body c hadm2 hct hr]
          intro hout
          simp only [Outcome.failure.injEq] at hout
          omega
        | complete c =>
          cases hd : env.decode c with
          | none =>
            rw [run_invalidImage env limit now h ct body c hadm2 hct hr hd]
            intro hout
            simp only [Outcome.failure.injEq] at hout
            omega
          | some img =>
            cases he : env.rembgRemove img with
            | error msg =>
              rw [run_transformError env limit now h ct body c img msg hadm2 hct hr hd he]
              intro hout
              simp only [Outcome.failure.injEq] at hout
              omega
            | ok outImg =>
              rw [run_success env limit now h ct body c img outImg hadm2 hct hr hd he]
              intro hout
              simp at hout
      · rw [run_invalidType env limit now h ct body hadm2 hct]
        intro hout
        simp only [Outcome.failure.injEq] at hout
        omega
  · rw [run_limited env limit now h ct body hlim]
  · rw [run_invalidType env limit now h ct body hadm hct]

/-- Witness for C9 with a concrete environment whose transform raises:
the outcome is the fixed generic 500 detail. -/
theorem spec_c9_witness :
    (remove_background envRembgFails 10 0 [] "image/png" [1, 2, 3]).outcome
      = Outcome.failure 500 transform_error_detail :=
  (spec_c9 envRembgFails 10 0 [] "image/png" [1, 2, 3]).1 [1, 2, 3]
    (ImageMetadata.mk 1 1 "RGB") "model failure"
    (by decide) (by decide) (by decide) (by rfl) (by rfl)

end NoFakePNG
